import Mathlib

/-!
Shallow embedding of the tradingview.client indicator engine
(`src/utils/rsiIndicator.ts`, the MACD module) and of the drawing-tools
manager (`src/utils/drawingTools.ts`), with theorems checking the
natural-language specification against the code.

JavaScript numbers are modelled as exact rationals (ℚ); `Math.round` is
modelled as rounding half toward positive infinity; `Math.abs` as `|·|`.
A JavaScript value of `number | null` is an `Option ℚ`.  Array indexing
`a[i]` that can fall out of range is modelled with `getD`/`[·]?` as noted
at each definition.
-/

namespace TV

/-- JavaScript `Math.round`: round half toward positive infinity, as an
integer (`Rat.floor` is the usual floor: `Rat.floor_def'`). -/
def jsRound (q : ℚ) : ℤ := (q + 1 / 2).floor

/-! ## RSI (`src/utils/rsiIndicator.ts`) -/

/-- One element of the array returned by `calculateRSI` (interface
`RSIDataPoint`): a timestamp and `rsi : number | null`. -/
structure RSIDataPoint (α : Type) where
  time : α
  rsi : Option ℚ
deriving DecidableEq, Repr

/-- Price deltas `closePrices[i] - closePrices[i-1]` for `i = 1 .. len-1`
(the `priceChanges` array of `calculateRSI`). -/
def priceChangesOf (closePrices : List ℚ) : List ℚ :=
  List.zipWith (fun a b => a - b) (closePrices.drop 1) closePrices

/-- Initial average gain and loss of `calculateRSI`: sum the positive
deltas, respectively the absolute values of the non-positive deltas, over
the first `period` entries of `priceChanges`, then divide both by
`period`. -/
def initAvgs (closePrices : List ℚ) (period : ℕ) : ℚ × ℚ :=
  let sums := ((priceChangesOf closePrices).take period).foldl
    (fun (gl : ℚ × ℚ) change =>
      if change > 0 then (gl.1 + change, gl.2) else (gl.1, gl.2 + |change|))
    (0, 0)
  (sums.1 / (period : ℚ), sums.2 / (period : ℚ))

/-- One step of Wilder smoothing, exactly as in the loop body of
`calculateRSI`: on a positive delta the gain is fed in, otherwise the
(absolute) loss is fed in; both branches rescale by `(period-1)/period`. -/
def wilderStep (period : ℚ) (avgGain avgLoss change : ℚ) : ℚ × ℚ :=
  if change > 0 then
    ((avgGain * (period - 1) + change) / period, avgLoss * (period - 1) / period)
  else
    (avgGain * (period - 1) / period, (avgLoss * (period - 1) + |change|) / period)

/-- Running `(avgGain, avgLoss)` pairs produced by the main loop of
`calculateRSI`, one pair per emitted RSI value (the pair holds the
averages after the update of that iteration, i.e. the values used to
compute that RSI entry). -/
def rsiStates (period : ℚ) (avgGain avgLoss : ℚ) : List ℚ → List (ℚ × ℚ)
  | [] => []
  | change :: rest =>
    let p := wilderStep period avgGain avgLoss change
    p :: rsiStates period p.1 p.2 rest

/-- RSI value computed from the updated averages in the loop body of
`calculateRSI`: `rs = avgGain/avgLoss` with `rs` forced to `100` when
`avgLoss == 0`; `rsi = 100 - 100/(1+rs)`, then
`Math.round(rsi * 100) / 100`. -/
def rsiFromAvgs (avgGain avgLoss : ℚ) : ℚ :=
  let rs : ℚ := if avgLoss = 0 then 100 else avgGain / avgLoss
  let rsi : ℚ := 100 - 100 / (1 + rs)
  (jsRound (rsi * 100) : ℚ) / 100

/-- The `(avgGain, avgLoss)` state sequence of `calculateRSI` on a given
close series: initial averages over the first `period` deltas, then one
`wilderStep` per delta `priceChanges[i-1]` for `i = period .. len-1`. -/
def rsiStatesOf (closePrices : List ℚ) (period : ℕ) : List (ℚ × ℚ) :=
  rsiStates (period : ℚ) (initAvgs closePrices period).1 (initAvgs closePrices period).2
    ((priceChangesOf closePrices).drop (period - 1))

/-- The function `calculateRSI(closePrices, times, period)`.  If
`closePrices.length < period + 1` it returns one all-null point per entry
of `times`; otherwise `period` null points (timestamps `times[i]`,
`i < period`) followed by one RSI value per remaining close price
(timestamp `times[period + k]`).  Out-of-range timestamp reads
(`times[i]` with `i ≥ times.length`, `undefined` in JavaScript) are
modelled with `getD … default`. -/
def calculateRSI {α : Type} [Inhabited α] (closePrices : List ℚ) (times : List α)
    (period : ℕ) : List (RSIDataPoint α) :=
  if closePrices.length < period + 1 then
    times.map (fun t => { time := t, rsi := none })
  else
    let nulls := (List.range period).map
      (fun i => ({ time := times.getD i default, rsi := none } : RSIDataPoint α))
    let tail := (rsiStatesOf closePrices period).enum.map
      (fun p => ({ time := times.getD (period + p.1) default,
                   rsi := some (rsiFromAvgs p.2.1 p.2.2) } : RSIDataPoint α))
    nulls ++ tail

/-! ## EMA and MACD (unnamed MACD module) -/

/-- One element of the array returned by `calculateMACD` (interface
`MACDData`). -/
structure MACDData (α : Type) where
  time : α
  macd : Option ℚ
  signal : Option ℚ
  histogram : Option ℚ
deriving DecidableEq, Repr

/-- Tail loop of `calculateEMA`: each new value is
`(x - prev) * multiplier + prev`. -/
def emaLoop (multiplier : ℚ) : ℚ → List ℚ → List ℚ
  | _, [] => []
  | prev, x :: rest =>
    let value := (x - prev) * multiplier + prev
    value :: emaLoop multiplier value rest

/-- The function `calculateEMA(data, period)`: empty input gives an empty
output; otherwise the first output is the sum of the first
`min period len` inputs divided by `period`, and each later input (from
index `period` on) contributes one smoothed value. -/
def calculateEMA (data : List ℚ) (period : ℕ) : List ℚ :=
  if data.length = 0 then []
  else
    let multiplier : ℚ := 2 / ((period : ℚ) + 1)
    let first : ℚ := ((data.take period).foldl (· + ·) 0) / (period : ℚ)
    first :: emaLoop multiplier first (data.drop period)

/-- The `macdLine` array of `calculateMACD`:
`fastEMA[i + (fastPeriod - 1)] - slowEMA[i]` for `i` over `slowEMA`'s
range.  A JavaScript out-of-range read (giving `NaN` after subtraction,
which the later `|| null` coercion maps to `null`) is modelled by
`getD … 0` (the `0` is likewise mapped to `null` downstream); for the
default periods every read is in range. -/
def macdLineOf (closePrices : List ℚ) (fastPeriod slowPeriod : ℕ) : List ℚ :=
  let fastEMA := calculateEMA closePrices fastPeriod
  let slowEMA := calculateEMA closePrices slowPeriod
  (List.range slowEMA.length).map
    (fun i => fastEMA.getD (i + (fastPeriod - 1)) 0 - slowEMA.getD i 0)

/-- The `signalLine` array of `calculateMACD`: an EMA of the MACD line
with period `signalPeriod`. -/
def signalLineOf (closePrices : List ℚ) (fastPeriod slowPeriod signalPeriod : ℕ) : List ℚ :=
  calculateEMA (macdLineOf closePrices fastPeriod slowPeriod) signalPeriod

/-- Body of the result-building loop of `calculateMACD` at index `i`.
Positions before `startIndex = slowPeriod - 1` are all null.  Otherwise
`macdValue = macdLine[macdIndex] || null` (JavaScript: `undefined` and a
falsy `0` both become `null`); the signal is set only when
`macdIndex >= signalPeriod - 1` and the signal-line entry is truthy
(present and nonzero); the histogram only when the signal is set and
`macdValue !== null`. -/
def macdEntry {α : Type} [Inhabited α] (times : List α) (macdLine signalLine : List ℚ)
    (startIndex signalPeriod : ℕ) (i : ℕ) : MACDData α :=
  if i < startIndex then
    { time := times.getD i default, macd := none, signal := none, histogram := none }
  else
    let macdIndex := i - startIndex
    let macdValue : Option ℚ :=
      match macdLine[macdIndex]? with
      | some v => if v = 0 then none else some v
      | none => none
    let signalValue : Option ℚ :=
      if signalPeriod - 1 ≤ macdIndex then
        match signalLine[macdIndex - (signalPeriod - 1)]? with
        | some v => if v = 0 then none else some v
        | none => none
      else none
    let histogramValue : Option ℚ :=
      match macdValue, signalValue with
      | some m, some s => some (m - s)
      | _, _ => none
    { time := times.getD i default, macd := macdValue, signal := signalValue,
      histogram := histogramValue }

/-- The function `calculateMACD(closePrices, times, config)` with the
config destructured into the three periods (defaults 12/26/9 at the call
sites).  If `closePrices.length < slowPeriod` it returns one all-null
entry per element of `times`; otherwise one `macdEntry` per element of
`times`. -/
def calculateMACD {α : Type} [Inhabited α] (closePrices : List ℚ) (times : List α)
    (fastPeriod slowPeriod signalPeriod : ℕ) : List (MACDData α) :=
  if closePrices.length < slowPeriod then
    times.map (fun t => { time := t, macd := none, signal := none, histogram := none })
  else
    (List.range times.length).map
      (macdEntry times (macdLineOf closePrices fastPeriod slowPeriod)
        (signalLineOf closePrices fastPeriod slowPeriod signalPeriod)
        (slowPeriod - 1) signalPeriod)

/-! ## Drawing manager (`src/utils/drawingTools.ts`)

The `DrawingManager` class is modelled as a pure state-transition system.
Domain points are `(time, price)` pairs; `time` (a lightweight-charts
`Time`) is modelled as ℤ, `price` as ℚ.  The TypeScript `activeDrawing`
field has type `any` and is pushed as-is into either collection, so a
single `Drawing` record (with optional `lineWidth`/`fillColor`) models
line drawings, shape drawings and the active drawing alike.  DOM and
canvas effects are modelled by state flags: `canvasAttached` records
whether the overlay canvas element is in the DOM, and the two counters
record how many visible-logical-range-change callbacks and window resize
listeners are currently installed.  `redraw()` does not change this
state.  The nondeterministic id (`drawing-` plus `Date.now()`) is an
explicit parameter of `startDrawing`. -/

/-- A `{ time, price }` domain point. -/
structure DomainPoint where
  time : ℤ
  price : ℚ
deriving DecidableEq, Repr

/-- A drawing primitive: the shared shape of `DrawingLine`,
`DrawingShape` and the untyped `activeDrawing`. -/
structure Drawing where
  id : String
  type : String
  points : List DomainPoint
  color : String
  lineWidth : Option ℕ
  fillColor : Option String
deriving DecidableEq, Repr

/-- A text annotation (interface `DrawingText`); only ever touched by
`clearAll` in the source. -/
structure DrawingText where
  id : String
  time : ℤ
  price : ℚ
  text : String
  color : String
  fontSize : ℕ
deriving DecidableEq, Repr

/-- Observable state of a `DrawingManager` instance. -/
structure ManagerState where
  lines : List Drawing
  shapes : List Drawing
  texts : List DrawingText
  activeDrawing : Option Drawing
  canvasAttached : Bool
  rangeChangeSubs : ℕ
  resizeListeners : ℕ
deriving DecidableEq, Repr

/-- State of a fresh manager before `setupCanvas` runs: empty
collections, no active drawing, no canvas, no subscriptions. -/
def initialState : ManagerState :=
  { lines := [], shapes := [], texts := [], activeDrawing := none,
    canvasAttached := false, rangeChangeSubs := 0, resizeListeners := 0 }

/-- The method `setupCanvas`: if the chart container is missing it
returns at once (no canvas, no subscriptions); otherwise it appends the
overlay canvas to the container, subscribes a visible-logical-range-change
callback and adds a window resize listener. -/
def setupCanvas (hasContainer : Bool) (s : ManagerState) : ManagerState :=
  if hasContainer then
    { s with canvasAttached := true,
             rangeChangeSubs := s.rangeChangeSubs + 1,
             resizeListeners := s.resizeListeners + 1 }
  else s

/-- The `DrawingManager` constructor: empty collections, then
`setupCanvas`. -/
def newDrawingManager (hasContainer : Bool) : ManagerState :=
  setupCanvas hasContainer initialState

/-- Drawing types routed to the line collection (`drawings.lines`) by
`finishDrawing`, and given `lineWidth` defaults by `startDrawing`. -/
def lineTypes : List String := ["trendline", "horizontal-line", "vertical-line", "ray"]

/-- Drawing types given `fillColor` defaults by `startDrawing`. -/
def shapeTypes : List String := ["rectangle", "circle", "triangle"]

/-- The method `startDrawing(type, point)`: for a known type, replaces
`activeDrawing` with a one-point drawing carrying the default style; the
`switch` has no default case, so an unknown type leaves the state
unchanged. -/
def startDrawing (s : ManagerState) (id : String) (ty : String) (point : DomainPoint) :
    ManagerState :=
  if ty ∈ lineTypes then
    let a : Drawing := { id := id, type := ty, points := [point], color := "#f7931a",
                         lineWidth := some 2, fillColor := none }
    { s with activeDrawing := some a }
  else if ty ∈ shapeTypes then
    let a : Drawing := { id := id, type := ty, points := [point], color := "#f7931a",
                         lineWidth := none, fillColor := some "rgba(247, 147, 26, 0.1)" }
    { s with activeDrawing := some a }
  else s

/-- The method `continueDrawing(point)`: no-op without an active
drawing; appends the second point when there is exactly one, otherwise
overwrites index 1 (`points[1] = point`; `List.set` is a no-op out of
range, while the JavaScript assignment on a shorter array would create a
sparse array — that branch is unreachable from the constructor and the
operations, which keep 1 or 2 points). -/
def continueDrawing (s : ManagerState) (point : DomainPoint) : ManagerState :=
  match s.activeDrawing with
  | none => s
  | some a =>
    if a.points.length = 1 then
      { s with activeDrawing := some ({ a with points := a.points ++ [point] }) }
    else
      { s with activeDrawing := some ({ a with points := a.points.set 1 point }) }

/-- The method `finishDrawing()`: no-op without an active drawing; with
at least 2 points the active drawing is pushed onto `lines` (for the
four line types) or `shapes` (otherwise); in every reached case the
active drawing is then set to `null`. -/
def finishDrawing (s : ManagerState) : ManagerState :=
  match s.activeDrawing with
  | none => s
  | some a =>
    if 2 ≤ a.points.length then
      if a.type ∈ lineTypes then
        { s with lines := s.lines ++ [a], activeDrawing := none }
      else
        { s with shapes := s.shapes ++ [a], activeDrawing := none }
    else
      { s with activeDrawing := none }

/-- The method `clearAll()`: empties the three collections. -/
def clearAll (s : ManagerState) : ManagerState :=
  { s with lines := [], shapes := [], texts := [] }

/-- The method `removeLastDrawing()`: pops the last shape if any,
otherwise the last line if any, otherwise does nothing. -/
def removeLastDrawing (s : ManagerState) : ManagerState :=
  if 0 < s.shapes.length then { s with shapes := s.shapes.dropLast }
  else if 0 < s.lines.length then { s with lines := s.lines.dropLast }
  else s

/-- The method `destroy()`: removes the canvas element from its parent
when attached.  Nothing else: the range-change subscription and the
resize listener are not touched. -/
def destroy (s : ManagerState) : ManagerState :=
  if s.canvasAttached then { s with canvasAttached := false } else s

/-- Specification predicate: every primitive persisted in the line or
shape collection has exactly 2 domain points. -/
def persistedTwoPoints (s : ManagerState) : Prop :=
  (∀ d ∈ s.lines, d.points.length = 2) ∧ ∀ d ∈ s.shapes, d.points.length = 2

/-- Inductive invariant of the manager: persisted primitives have
exactly 2 points, and an active drawing has 1 or 2. -/
def ManagerInv (s : ManagerState) : Prop :=
  persistedTwoPoints s ∧ ∀ a, s.activeDrawing = some a → a.points.length = 1 ∨ a.points.length = 2

/-! ## Concrete fixtures (used to instantiate the theorems) -/

/-- A finished two-point rectangle, as `finishDrawing` would persist it. -/
def sampleShapeDrawing : Drawing :=
  { id := "drawing-1", type := "rectangle",
    points := [{ time := 0, price := 0 }, { time := 1, price := 1 }],
    color := "#f7931a", lineWidth := none, fillColor := none }

/-- A two-point trendline as built by `startDrawing` then
`continueDrawing`. -/
def sampleTrendline : Drawing :=
  { id := "drawing-2", type := "trendline",
    points := [{ time := 10, price := 100 }, { time := 20, price := 110 }],
    color := "#f7931a", lineWidth := some 2, fillColor := none }

/-- A manager holding one persisted shape. -/
def sampleShapeState : ManagerState :=
  { lines := [], shapes := [sampleShapeDrawing], texts := [], activeDrawing := none,
    canvasAttached := true, rangeChangeSubs := 1, resizeListeners := 1 }

/-- A manager with a two-point trendline in progress. -/
def sampleActiveState : ManagerState :=
  { lines := [], shapes := [], texts := [], activeDrawing := some sampleTrendline,
    canvasAttached := true, rangeChangeSubs := 1, resizeListeners := 1 }


/-! ## Theorems

Helper lemmas come first; the claim theorems follow, each with the claim
id in its doc comment. -/

/-- Helper: the tail loop of `calculateEMA` emits one value per input. -/
theorem emaLoop_length (multiplier prev : ℚ) (xs : List ℚ) :
    (emaLoop multiplier prev xs).length = xs.length := by
  induction xs generalizing prev with
  | nil => rfl
  | cons x rest ih => simp [emaLoop, ih]

/-- C2 (amended): the empty input yields an empty output; for a nonempty
input with `period ≤ len(data)` the output length is
`len(data) − period + 1`; but for a nonempty input shorter than the
period the output length is 1 (the claimed formula fails there). -/
theorem calculateEMA_length (data : List ℚ) (period : ℕ) :
    (data = [] → calculateEMA data period = []) ∧
    (data ≠ [] → period ≤ data.length →
      ((calculateEMA data period).length : ℤ) = (data.length : ℤ) - (period : ℤ) + 1) ∧
    (data ≠ [] → data.length < period → (calculateEMA data period).length = 1) := by
  refine ⟨fun h => by simp [calculateEMA, h], fun h hle => ?_, fun h hlt => ?_⟩
  · have hne : ¬ data.length = 0 := by simpa [List.length_eq_zero] using h
    simp only [calculateEMA, if_neg hne, List.length_cons, emaLoop_length, List.length_drop]
    omega
  · have hne : ¬ data.length = 0 := by simpa [List.length_eq_zero] using h
    simp only [calculateEMA, if_neg hne, List.length_cons, emaLoop_length, List.length_drop]
    omega

/-- C2 (counterexample): on the one-element series `[1]` with period 2,
`calculateEMA` returns a list of length 1, but the claimed formula
`len − period + 1` gives 0 — the claim is false for inputs shorter than
the period. -/
theorem calculateEMA_length_counterexample :
    (calculateEMA [1] 2).length = 1 ∧ (([(1 : ℚ)].length : ℤ) - 2 + 1 ≠ 1) :=
  ⟨by decide!, by decide⟩

/-- C2 (witness): the amended length formula, instantiated at
`data = [1, 2, 3]`, `period = 2`. -/
theorem calculateEMA_length_witness :
    ([(1 : ℚ), 2, 3] ≠ []) ∧ 2 ≤ [(1 : ℚ), 2, 3].length ∧
      ((calculateEMA [1, 2, 3] 2).length : ℤ) = ([(1 : ℚ), 2, 3].length : ℤ) - 2 + 1 :=
  ⟨by decide, by decide, (calculateEMA_length [1, 2, 3] 2).2.1 (by decide) (by decide)⟩

/-- C5: when the close series is shorter than the required lookback
(`period + 1` for `calculateRSI`, `slowPeriod` for `calculateMACD`), the
function returns one entry per element of `times` with every value field
null.  Both functions are total (they never raise). -/
theorem insufficient_data_all_null {α : Type} [Inhabited α] (closePrices : List ℚ)
    (times : List α) (period fastPeriod slowPeriod signalPeriod : ℕ) :
    (closePrices.length < period + 1 →
      (calculateRSI closePrices times period).length = times.length ∧
      ∀ p ∈ calculateRSI closePrices times period, p.rsi = none) ∧
    (closePrices.length < slowPeriod →
      (calculateMACD closePrices times fastPeriod slowPeriod signalPeriod).length = times.length ∧
      ∀ e ∈ calculateMACD closePrices times fastPeriod slowPeriod signalPeriod,
        e.macd = none ∧ e.signal = none ∧ e.histogram = none) := by
  constructor
  · intro h
    simp only [calculateRSI, if_pos h]
    constructor
    · simp
    · intro p hp
      simp only [List.mem_map] at hp
      obtain ⟨t, _, rfl⟩ := hp
      rfl
  · intro h
    simp only [calculateMACD, if_pos h]
    constructor
    · simp
    · intro e he
      simp only [List.mem_map] at he
      obtain ⟨t, _, rfl⟩ := he
      exact ⟨rfl, rfl, rfl⟩

/-- C5 (witness): two close prices with three timestamps, default
periods. -/
theorem insufficient_data_all_null_witness :
    ([(1 : ℚ), 2].length < 14 + 1) ∧ ([(1 : ℚ), 2].length < 26) ∧
    ((calculateRSI [1, 2] [10, 20, 30] 14).length = 3 ∧
      ∀ p ∈ calculateRSI [(1 : ℚ), 2] ([10, 20, 30] : List ℕ) 14, p.rsi = none) ∧
    ((calculateMACD [1, 2] [10, 20, 30] 12 26 9).length = 3 ∧
      ∀ e ∈ calculateMACD [(1 : ℚ), 2] ([10, 20, 30] : List ℕ) 12 26 9,
        e.macd = none ∧ e.signal = none ∧ e.histogram = none) :=
  ⟨by decide, by decide,
    (insufficient_data_all_null [1, 2] [10, 20, 30] 14 12 26 9).1 (by decide),
    (insufficient_data_all_null [1, 2] [10, 20, 30] 14 12 26 9).2 (by decide)⟩

/-- C9: `removeLastDrawing` pops the last shape when the shape collection
is nonempty, otherwise pops the last line when the line collection is
nonempty, and otherwise changes nothing (and, being total, never
throws). -/
theorem removeLastDrawing_spec (s : ManagerState) :
    (s.shapes ≠ [] → removeLastDrawing s = { s with shapes := s.shapes.dropLast }) ∧
    (s.shapes = [] → s.lines ≠ [] → removeLastDrawing s = { s with lines := s.lines.dropLast }) ∧
    (s.shapes = [] → s.lines = [] → removeLastDrawing s = s) := by
  refine ⟨fun h => ?_, fun h h2 => ?_, fun h h2 => ?_⟩
  · simp [removeLastDrawing, List.length_pos.mpr h]
  · simp [removeLastDrawing, h, List.length_pos.mpr h2]
  · simp [removeLastDrawing, h, h2]

/-- C9 (witness): popping from a state holding one shape empties the
shape collection and changes nothing else. -/
theorem removeLastDrawing_spec_witness :
    (sampleShapeState.shapes ≠ []) ∧
    removeLastDrawing sampleShapeState = { sampleShapeState with shapes := [] } :=
  ⟨by decide, by
    have h := (removeLastDrawing_spec sampleShapeState).1 (by decide)
    simpa [sampleShapeState] using h⟩

/-- C7: after constructing a manager with a present container (which
installs one range-change subscription and one resize listener) and
calling `destroy`, the canvas is detached but both subscriptions are
still installed — `destroy` only removes the canvas element, so the
claim that it removes all subscriptions fails on the code. -/
theorem destroy_leaves_subscriptions_installed :
    (destroy (newDrawingManager true)).canvasAttached = false ∧
    (destroy (newDrawingManager true)).rangeChangeSubs = 1 ∧
    (destroy (newDrawingManager true)).resizeListeners = 1 :=
  ⟨rfl, rfl, rfl⟩

/-- C8: with an active drawing present, `finishDrawing` always clears
it; with fewer than 2 points it leaves both collections unchanged; with
at least 2 points it appends the drawing to the line collection for the
four line subtypes and to the shape collection otherwise. -/
theorem finishDrawing_spec (s : ManagerState) (a : Drawing) (ha : s.activeDrawing = some a) :
    (finishDrawing s).activeDrawing = none ∧
    (a.points.length < 2 →
      (finishDrawing s).lines = s.lines ∧ (finishDrawing s).shapes = s.shapes) ∧
    (2 ≤ a.points.length → a.type ∈ lineTypes →
      (finishDrawing s).lines = s.lines ++ [a] ∧ (finishDrawing s).shapes = s.shapes) ∧
    (2 ≤ a.points.length → a.type ∉ lineTypes →
      (finishDrawing s).shapes = s.shapes ++ [a] ∧ (finishDrawing s).lines = s.lines) := by
  simp only [finishDrawing, ha]
  by_cases h2 : 2 ≤ a.points.length
  · by_cases hline : a.type ∈ lineTypes
    · simp [h2, hline]
    · simp [h2, hline]
  · simp [h2]

/-- C8 (witness): finishing a two-point trendline clears the active
drawing and appends to the line collection. -/
theorem finishDrawing_spec_witness :
    sampleActiveState.activeDrawing = some sampleTrendline ∧
    (finishDrawing sampleActiveState).activeDrawing = none ∧
    (2 ≤ sampleTrendline.points.length ∧ sampleTrendline.type ∈ lineTypes ∧
      (finishDrawing sampleActiveState).lines = sampleActiveState.lines ++ [sampleTrendline]) :=
  ⟨rfl, (finishDrawing_spec sampleActiveState sampleTrendline rfl).1,
    by decide, by decide,
    ((finishDrawing_spec sampleActiveState sampleTrendline rfl).2.2.1 (by decide) (by decide)).1⟩

/-- C10: from any state satisfying the manager invariant (persisted
primitives have exactly 2 domain points; an active drawing has 1 or 2),
each of the five operations preserves the invariant, and in particular
every primitive persisted in the line or shape collection after the
operation has exactly 2 domain points. -/
theorem drawing_ops_preserve_two_point_invariant (s : ManagerState) (hs : ManagerInv s)
    (id ty : String) (p : DomainPoint) :
    (ManagerInv (startDrawing s id ty p) ∧ persistedTwoPoints (startDrawing s id ty p)) ∧
    (ManagerInv (continueDrawing s p) ∧ persistedTwoPoints (continueDrawing s p)) ∧
    (ManagerInv (finishDrawing s) ∧ persistedTwoPoints (finishDrawing s)) ∧
    (ManagerInv (clearAll s) ∧ persistedTwoPoints (clearAll s)) ∧
    (ManagerInv (removeLastDrawing s) ∧ persistedTwoPoints (removeLastDrawing s)) := by
  obtain ⟨⟨hlines, hshapes⟩, hactive⟩ := hs
  have hstart : ManagerInv (startDrawing s id ty p) := by
    unfold ManagerInv persistedTwoPoints startDrawing
    split
    · refine ⟨⟨hlines, hshapes⟩, fun b hb => ?_⟩
      dsimp only at hb
      simp only [Option.some.injEq] at hb
      simp [← hb]
    · split
      · refine ⟨⟨hlines, hshapes⟩, fun b hb => ?_⟩
        dsimp only at hb
        simp only [Option.some.injEq] at hb
        simp [← hb]
      · exact ⟨⟨hlines, hshapes⟩, hactive⟩
  have hcont : ManagerInv (continueDrawing s p) := by
    unfold ManagerInv persistedTwoPoints continueDrawing
    cases hA : s.activeDrawing with
    | none => exact ⟨⟨hlines, hshapes⟩, fun b hb => hactive b hb⟩
    | some a =>
      dsimp only
      rcases hactive a hA with h1 | h2
      · rw [if_pos h1]
        refine ⟨⟨hlines, hshapes⟩, fun b hb => ?_⟩
        dsimp only at hb
        simp only [Option.some.injEq] at hb
        right
        simp [← hb, h1]
      · rw [if_neg (by omega)]
        refine ⟨⟨hlines, hshapes⟩, fun b hb => ?_⟩
        dsimp only at hb
        simp only [Option.some.injEq] at hb
        right
        simp [← hb, List.length_set, h2]
  have hfin : ManagerInv (finishDrawing s) := by
    unfold ManagerInv persistedTwoPoints finishDrawing
    cases hA : s.activeDrawing with
    | none => exact ⟨⟨hlines, hshapes⟩, fun b hb => hactive b hb⟩
    | some a =>
      dsimp only
      have ha2 : 2 ≤ a.points.length → a.points.length = 2 := by
        rcases hactive a hA with h1 | h2 <;> omega
      split
      · split
        · refine ⟨⟨fun d hd => ?_, hshapes⟩, by simp⟩
          rcases List.mem_append.mp hd with hd | hd
          · exact hlines d hd
          · rcases List.mem_singleton.mp hd with rfl
            exact ha2 (by assumption)
        · refine ⟨⟨hlines, fun d hd => ?_⟩, by simp⟩
          rcases List.mem_append.mp hd with hd | hd
          · exact hshapes d hd
          · rcases List.mem_singleton.mp hd with rfl
            exact ha2 (by assumption)
      · exact ⟨⟨hlines, hshapes⟩, by simp⟩
  have hclear : ManagerInv (clearAll s) :=
    ⟨⟨by simp [clearAll], by simp [clearAll]⟩, fun a ha => hactive a ha⟩
  have hrem : ManagerInv (removeLastDrawing s) := by
    unfold ManagerInv persistedTwoPoints removeLastDrawing
    split
    · exact ⟨⟨hlines, fun d hd => hshapes d (List.dropLast_subset _ hd)⟩, hactive⟩
    · split
      · exact ⟨⟨fun d hd => hlines d (List.dropLast_subset _ hd), hshapes⟩, hactive⟩
      · exact ⟨⟨hlines, hshapes⟩, hactive⟩
  exact ⟨⟨hstart, hstart.1⟩, ⟨hcont, hcont.1⟩, ⟨hfin, hfin.1⟩, ⟨hclear, hclear.1⟩,
    ⟨hrem, hrem.1⟩⟩

/-- C10 (witness): the invariant holds for the one-shape sample state and
is preserved there by `finishDrawing` and `removeLastDrawing`. -/
theorem drawing_ops_preserve_two_point_invariant_witness :
    ManagerInv sampleShapeState ∧
    persistedTwoPoints (finishDrawing sampleShapeState) ∧
    persistedTwoPoints (removeLastDrawing sampleShapeState) := by
  have hinv : ManagerInv sampleShapeState := by
    refine ⟨⟨?_, ?_⟩, ?_⟩
    · intro d hd; simp [sampleShapeState] at hd
    · intro d hd
      simp only [sampleShapeState, List.mem_singleton] at hd
      subst hd
      rfl
    · intro a ha; simp [sampleShapeState] at ha
  have h := drawing_ops_preserve_two_point_invariant sampleShapeState hinv "drawing-3"
    "trendline" { time := 0, price := 0 }
  exact ⟨hinv, h.2.2.1.2, h.2.2.2.2.2⟩

/-- Helper: in an entry built by `macdEntry`, if the macd and signal
fields are both non-null, the histogram field is their difference. -/
theorem macdEntry_histogram {α : Type} [Inhabited α] (times : List α)
    (macdLine signalLine : List ℚ) (startIndex signalPeriod i : ℕ) (m s : ℚ)
    (hm : (macdEntry times macdLine signalLine startIndex signalPeriod i).macd = some m)
    (hs : (macdEntry times macdLine signalLine startIndex signalPeriod i).signal = some s) :
    (macdEntry times macdLine signalLine startIndex signalPeriod i).histogram
      = some (m - s) := by
  by_cases hlt : i < startIndex
  · simp [macdEntry, if_pos hlt] at hm
  · simp only [macdEntry, if_neg hlt] at hm hs ⊢
    cases hml : macdLine[i - startIndex]? with
    | none => rw [hml] at hm; simp at hm
    | some v =>
      rw [hml] at hm
      dsimp only at hm ⊢
      by_cases hv : v = 0
      · rw [if_pos hv] at hm; simp at hm
      · rw [if_neg hv] at hm ⊢
        by_cases hguard : signalPeriod - 1 ≤ i - startIndex
        · rw [if_pos hguard] at hs ⊢
          cases hsl : signalLine[i - startIndex - (signalPeriod - 1)]? with
          | none => rw [hsl] at hs; simp at hs
          | some w =>
            rw [hsl] at hs
            dsimp only at hs ⊢
            by_cases hw : w = 0
            · rw [if_pos hw] at hs; simp at hs
            · rw [if_neg hw] at hs ⊢
              simp only [Option.some.injEq] at hm hs
              subst hm
              subst hs
              rfl
        · rw [if_neg hguard] at hs; simp at hs

/-- C6: for every input to `calculateMACD`, at every output index whose
entry has both macd and signal non-null, the histogram field equals
macd minus signal. -/
theorem calculateMACD_histogram_eq_sub {α : Type} [Inhabited α] (closePrices : List ℚ)
    (times : List α) (fastPeriod slowPeriod signalPeriod i : ℕ) (e : MACDData α) (m s : ℚ)
    (he : (calculateMACD closePrices times fastPeriod slowPeriod signalPeriod)[i]? = some e)
    (hm : e.macd = some m) (hs : e.signal = some s) :
    e.histogram = some (m - s) := by
  unfold calculateMACD at he
  split at he
  · rw [List.getElem?_map] at he
    cases ht : times[i]? with
    | none => rw [ht] at he; simp at he
    | some t =>
      rw [ht] at he
      simp only [Option.map_some', Option.some.injEq] at he
      rw [← he] at hm
      simp at hm
  · rw [List.getElem?_map] at he
    cases hr : (List.range times.length)[i]? with
    | none => rw [hr] at he; simp at he
    | some j =>
      rw [hr] at he
      simp only [Option.map_some', Option.some.injEq] at he
      subst he
      exact macdEntry_histogram _ _ _ _ _ _ _ _ hm hs

/-- C6 (witness): `close = [1, 3]` with periods 1/2/1 produces an entry
with macd and signal both non-null at index 1, whose histogram is their
difference. -/
theorem calculateMACD_histogram_eq_sub_witness :
    ((calculateMACD [1, 3] ([0, 1] : List ℕ) 1 2 1)[1]?
        = some { time := 1, macd := some (-1), signal := some (-1), histogram := some 0 }) ∧
    ({ time := 1, macd := some (-1), signal := some (-1),
        histogram := some 0 } : MACDData ℕ).histogram = some ((-1) - (-1)) := by
  have h : (calculateMACD [1, 3] ([0, 1] : List ℕ) 1 2 1)[1]?
      = some { time := 1, macd := some (-1), signal := some (-1), histogram := some 0 } := by
    decide!
  exact ⟨h, calculateMACD_histogram_eq_sub [1, 3] [0, 1] 1 2 1 1 _ (-1) (-1) h rfl rfl⟩

/-- C4: past the warm-up region, an exact-zero macd difference is
reported as null (the JavaScript `macdLine[macdIndex] || null` coerces a
falsy 0), and an exact-zero signal-line value is likewise reported as a
null signal (the truthiness guard rejects 0) — so positions at or after
`slowPeriod − 1` are not guaranteed non-null. -/
theorem calculateMACD_zero_coerced_to_null {α : Type} [Inhabited α] (closePrices : List ℚ)
    (times : List α) (fastPeriod slowPeriod signalPeriod i : ℕ)
    (hlen : slowPeriod ≤ closePrices.length) (hi : slowPeriod - 1 ≤ i)
    (hit : i < times.length)
    (hm : (macdLineOf closePrices fastPeriod slowPeriod)[i - (slowPeriod - 1)]? = some 0) :
    ((calculateMACD closePrices times fastPeriod slowPeriod signalPeriod)[i]?).map
      (fun e => e.macd) = some none ∧
    ((signalLineOf closePrices fastPeriod slowPeriod signalPeriod)[i - (slowPeriod - 1)
        - (signalPeriod - 1)]? = some 0 →
      ((calculateMACD closePrices times fastPeriod slowPeriod signalPeriod)[i]?).map
        (fun e => e.signal) = some none) := by
  have hne : ¬ closePrices.length < slowPeriod := by omega
  have hrange : (List.range times.length)[i]? = some i := List.getElem?_range hit
  unfold calculateMACD
  rw [if_neg hne, List.getElem?_map, hrange]
  simp only [Option.map_some', Option.some.injEq]
  unfold macdEntry
  rw [if_neg (by omega)]
  dsimp only
  constructor
  · rw [hm]
    simp
  · intro hsig
    split
    · rw [hsig]
      simp
    · simp

/-- C4 (witness): the constant series `[5, 5]` with periods 1/2/1 has
macd difference exactly 0 at index 1 and signal-line value 0, and the
reported macd and signal there are both null. -/
theorem calculateMACD_zero_coerced_to_null_witness :
    (2 ≤ [(5 : ℚ), 5].length) ∧ (2 - 1 ≤ 1) ∧ (1 < ([0, 1] : List ℕ).length) ∧
    ((macdLineOf [5, 5] 1 2)[1 - (2 - 1)]? = some 0) ∧
    ((signalLineOf [5, 5] 1 2 1)[1 - (2 - 1) - (1 - 1)]? = some 0) ∧
    ((calculateMACD [(5 : ℚ), 5] ([0, 1] : List ℕ) 1 2 1)[1]?).map (fun e => e.macd)
      = some none ∧
    ((calculateMACD [(5 : ℚ), 5] ([0, 1] : List ℕ) 1 2 1)[1]?).map (fun e => e.signal)
      = some none := by
  have hm : (macdLineOf [(5 : ℚ), 5] 1 2)[1 - (2 - 1)]? = some 0 := by decide!
  have hsig : (signalLineOf [(5 : ℚ), 5] 1 2 1)[1 - (2 - 1) - (1 - 1)]? = some 0 := by decide!
  have h := calculateMACD_zero_coerced_to_null [5, 5] ([0, 1] : List ℕ) 1 2 1 1
    (by decide) (by decide) (by decide) hm
  exact ⟨by decide, by decide, by decide, hm, hsig, h.1, h.2 hsig⟩

/-- C3: on 40 repetitions of 100 with periods 12/26/9, every output
entry of `calculateMACD` whose macd (resp. histogram) field is defined
carries the value 0 — encoded as `getD 0 = 0`, which holds trivially at
null entries and forces the value 0 at non-null ones.  (On this input
every macd difference is exactly 0, so the `|| null` coercion of C4 in
fact leaves no position with a non-null macd or histogram.) -/
theorem calculateMACD_const_zero_where_defined :
    ((calculateMACD (List.replicate 40 (100 : ℚ)) (List.range 40) 12 26 9).all
      (fun e => decide (e.macd.getD 0 = 0 ∧ e.histogram.getD 0 = 0))) = true := by
  decide!

/-- Helper: the RSI value computed with a zero running average loss is
exactly 99.01 — `rs` is forced to 100, `rsi = 100 − 100/101 = 9900.99/100`,
and `Math.round(rsi * 100)/100 = 99.01`. -/
theorem rsiFromAvgs_avgLoss_zero (g : ℚ) : rsiFromAvgs g 0 = 9901 / 100 := by
  have h : ((jsRound ((100 - 100 / (1 + (100 : ℚ))) * 100) : ℚ) / 100) = 9901 / 100 := by
    decide!
  simpa [rsiFromAvgs] using h

/-- C1 (amended): for every close series long enough to compute RSI, at
every output position whose running Wilder average loss is 0 the reported
RSI is 99.01 — not 100 as claimed, because the code forces `RS = 100`
(rather than infinity), giving `RSI = 100 − 100/101 ≈ 99.0099`, rounded
to 99.01.  Position `period + k` of the output corresponds to state `k`
of `rsiStatesOf`. -/
theorem calculateRSI_avgLoss_zero_eq_99_01 {α : Type} [Inhabited α] (closePrices : List ℚ)
    (times : List α) (period k : ℕ) (hlen : period + 1 ≤ closePrices.length)
    (hk : k < (rsiStatesOf closePrices period).length)
    (hloss : ((rsiStatesOf closePrices period).getD k (0, 0)).2 = 0) :
    ((calculateRSI closePrices times period)[period + k]?).map (fun p => p.rsi)
      = some (some (9901 / 100)) := by
  have hne : ¬ closePrices.length < period + 1 := by omega
  unfold calculateRSI
  rw [if_neg hne]
  rw [List.getElem?_append_right (by simp)]
  simp only [List.length_map, List.length_range, Nat.add_sub_cancel_left]
  rw [List.getElem?_map, List.getElem?_enum]
  have hst : (rsiStatesOf closePrices period)[k]?
      = some ((rsiStatesOf closePrices period)[k]) := List.getElem?_eq_getElem hk
  rw [hst]
  have hloss2 : ((rsiStatesOf closePrices period)[k]).2 = 0 := by
    rw [List.getD_eq_getElem?_getD, hst] at hloss
    exact hloss
  simp only [Option.map_some', Option.some.injEq]
  rw [hloss2, rsiFromAvgs_avgLoss_zero]

/-- C1 (witness): on the ascending series `[1..30]` with period 14, the
first Wilder state has average loss 0 and output position 14 (the 15th
entry) reports RSI 99.01. -/
theorem calculateRSI_avgLoss_zero_eq_99_01_witness :
    (14 + 1 ≤ ((List.range 30).map (fun n => ((n + 1 : ℕ) : ℚ))).length) ∧
    (0 < (rsiStatesOf ((List.range 30).map (fun n => ((n + 1 : ℕ) : ℚ))) 14).length) ∧
    (((rsiStatesOf ((List.range 30).map (fun n => ((n + 1 : ℕ) : ℚ))) 14).getD 0 (0, 0)).2
      = 0) ∧
    ((calculateRSI ((List.range 30).map (fun n => ((n + 1 : ℕ) : ℚ)))
        (List.range 30) 14)[14 + 0]?).map (fun p => p.rsi) = some (some (9901 / 100)) :=
  ⟨by decide!, by decide!, by decide!,
    calculateRSI_avgLoss_zero_eq_99_01 _ (List.range 30) 14 0 (by decide!) (by decide!)
      (by decide!)⟩

/-- C1 (counterexample): on the ascending series `[1..30]` with period
14 the 15th entry (index 14) of `calculateRSI` is 99.01, which is not
100 — refuting the claim that a zero average loss yields RSI 100. -/
theorem calculateRSI_ascending_15th_not_100 :
    ((calculateRSI ((List.range 30).map (fun n => ((n + 1 : ℕ) : ℚ)))
        (List.range 30) 14)[14]?).map (fun p => p.rsi) = some (some (9901 / 100)) ∧
      ((9901 : ℚ) / 100) ≠ 100 :=
  ⟨by decide!, by decide!⟩

end TV
